import Mathlib

/-!
Verification of the type-mapping and batched-ingestion pipeline of
`src/iceberg_to_sqlserver.py` against its specification.

The Python source is shallowly embedded below:
* `arrow_type_to_sql` (source lines 88-115) together with the ordered
  `ICEBERG_TO_SQL_TYPE_MAP` (lines 27-55);
* `ingest_data` (lines 178-212) as the batch partition computed by
  `range(0, len(rows), batch_size)` and slicing;
* `create_table_if_needed` (lines 138-175) as a transition on an explicit
  destination-database state, together with the exact SQL statement texts and
  bound parameters it issues;
* `run` (lines 215-252) as the orchestrator over a connection whose pending
  transaction becomes durable on commit and is discarded by a close without
  commit, with failure oracles standing for destination errors;
* the CLI override block of `main` (lines 320-353).
-/

/-- ASCII lowercasing of one character; models Python `str.lower()` on the
ASCII range (all type tags handled by the script are ASCII). -/

def asciiLower (c : Char) : Char :=
  if 65 ≤ c.toNat ∧ c.toNat ≤ 90 then Char.ofNat (c.toNat + 32) else c

/-- Python `str.lower()`. -/

def pyLower (s : String) : String := String.mk (s.data.map asciiLower)

/-- ASCII decimal digit; models the regex class `\d` on these ASCII inputs. -/

def isDigitCh (c : Char) : Bool := 48 ≤ c.toNat && c.toNat ≤ 57

/-- ASCII whitespace; models the regex class `\s` on these ASCII inputs. -/

def isSpaceCh (c : Char) : Bool :=
  c.toNat = 32 || c.toNat = 9 || c.toNat = 10 || c.toNat = 13 || c.toNat = 12 || c.toNat = 11

/-- Strip an expected literal from the head of a char list, returning the rest. -/

def dropPrefixCh : List Char → List Char → Option (List Char)
  | [], s => some s
  | _ :: _, [] => none
  | p :: ps, c :: cs => if c = p then dropPrefixCh ps cs else none

/-- Substring occurrence test on char lists; models Python `pat in s`. -/

def subOccurs (pat : List Char) : List Char → Bool
  | [] => pat.isPrefixOf []
  | c :: rest => pat.isPrefixOf (c :: rest) || subOccurs pat rest

/-- Python `pat in s` on strings. -/

def pyContains (s pat : String) : Bool := subOccurs pat.data s.data

/-- Python `s.startswith(pre)`. -/

def pyStartsWithPre (s pre : String) : Bool := pre.data.isPrefixOf s.data

/-- The literal `decimal` that both the `startswith` test and the regex begin with. -/

def decimalPat : List Char := ['d', 'e', 'c', 'i', 'm', 'a', 'l']

/-- One anchored attempt of the regex `decimal\d*\((\d+),\s*(\d+)\)` (source
line 96) at the head of `cs`, returning the two captured digit groups. Each
quantified character class here is disjoint from the literal that follows it
(digits vs `(`, digits vs `,`, spaces vs digits, digits vs `)`), so the
backtracking regex semantics coincide with this greedy deterministic scan. -/

def expectCh (c : Char) : List Char → Option (List Char)
  | [] => none
  | d :: rest => if d = c then some rest else none

def matchDecimalAt (cs : List Char) : Option (List Char × List Char) :=
  (dropPrefixCh decimalPat cs).bind (fun r1 =>
    (expectCh '(' (r1.dropWhile isDigitCh)).bind (fun r3 =>
      let p := r3.takeWhile isDigitCh
      if p.isEmpty then none
      else
        (expectCh ',' (r3.dropWhile isDigitCh)).bind (fun r5 =>
          let r6 := r5.dropWhile isSpaceCh
          let s := r6.takeWhile isDigitCh
          if s.isEmpty then none
          else
            (expectCh ')' (r6.dropWhile isDigitCh)).map (fun _ => (p, s)))))

/-- `re.search` of the decimal pattern: try every start position left to right. -/

def searchDecimalList : List Char → Option (List Char × List Char)
  | [] => none
  | c :: rest =>
    match matchDecimalAt (c :: rest) with
    | some r => some r
    | none => searchDecimalList rest

/-- `ICEBERG_TO_SQL_TYPE_MAP` (source lines 27-55) in insertion order; Python
dict iteration preserves insertion order and `arrow_type_to_sql` scans the
entries in that order. -/

def ICEBERG_TO_SQL_TYPE_MAP : List (String × String) := [
  ("bool", "BIT"), ("int8", "TINYINT"), ("int16", "SMALLINT"), ("int32", "INT"),
  ("int64", "BIGINT"), ("uint8", "SMALLINT"), ("uint16", "INT"), ("uint32", "BIGINT"),
  ("uint64", "BIGINT"), ("float16", "REAL"), ("float32", "REAL"), ("float", "REAL"),
  ("float64", "FLOAT"), ("double", "FLOAT"), ("decimal128", "DECIMAL"),
  ("date32", "DATE"), ("date64", "DATE"), ("timestamp", "DATETIME2"),
  ("time32", "TIME"), ("time64", "TIME"), ("string", "NVARCHAR(MAX)"),
  ("large_string", "NVARCHAR(MAX)"), ("utf8", "NVARCHAR(MAX)"), ("large_utf8", "NVARCHAR(MAX)"),
  ("binary", "VARBINARY(MAX)"), ("large_binary", "VARBINARY(MAX)"),
  ("fixed_size_binary", "VARBINARY(MAX)")]

/-- The `for key, sql_type in ICEBERG_TO_SQL_TYPE_MAP.items(): if key in
type_str` loop (source lines 110-112): first key that occurs as a substring wins. -/

def lookupSub : List (String × String) → List Char → Option String
  | [], _ => none
  | (k, v) :: rest, cs => if subOccurs k.data cs then some v else lookupSub rest cs

/-- Exact-key dict lookup — the mapping `ICEBERG_TO_SQL_TYPE_MAP` itself
declares for a tag, independent of the substring scan that consults it. -/

def dictLookup (m : List (String × String)) (k : String) : Option String :=
  (m.find? (fun kv => kv.1 == k)).map (fun kv => kv.2)

/-- Body of `arrow_type_to_sql` (source lines 88-115) over the lowered char
list: decimal rule, then timestamp/date/time substrings, then the composite
families, then the substring scan of the fixed table, else NVARCHAR(MAX) with
a non-fatal warning. -/

def arrowTypeCore (cs : List Char) : String :=
  if decimalPat.isPrefixOf cs then
    match searchDecimalList cs with
    | some (p, s) => "DECIMAL(" ++ String.mk p ++ ", " ++ String.mk s ++ ")"
    | none => "DECIMAL(38, 18)"
  else if subOccurs ("timestamp").data cs then ("DATETIME2")
  else if subOccurs ("date").data cs then ("DATE")
  else if subOccurs ("time").data cs then ("TIME")
  else if subOccurs ("list").data cs || subOccurs ("struct").data cs || subOccurs ("map").data cs then
    "NVARCHAR(MAX)"
  else
    match lookupSub ICEBERG_TO_SQL_TYPE_MAP cs with
    | some t => t
    | none => "NVARCHAR(MAX)"

/-- `arrow_type_to_sql` (source lines 88-115): lower the printed type, then map. -/

def arrow_type_to_sql (arrow_type : String) : String :=
  arrowTypeCore (pyLower arrow_type).data

/-- C1: the claim says the fixed lookup table maps signed widths 8/16/32/64 to
TINYINT/SMALLINT/INT/BIGINT and promotes each unsigned width one tier up
(uint8 to SMALLINT, uint16 to INT, uint32 to BIGINT, uint64 to BIGINT). The
entries of the table itself do say exactly that, and the signed widths and uint64 come
out as claimed — but the lookup is a substring scan in insertion order, and
the signed key is a substring of the unsigned tag, so arrow_type_to_sql
returns TINYINT for uint8, SMALLINT for uint16 and INT for uint32,
contradicting the uint8/uint16/uint32 entries of the table itself. -/

abbrev Row := List String

/-- Number of elements of Python `range(start, stop, step)` for `step ≠ 0`. -/

def pyRangeLen (start stop step : Int) : Nat :=
  if 0 < step then ((stop - start + step - 1) / step).toNat
  else ((start - stop + (-step) - 1) / (-step)).toNat

/-- Python `range(start, stop, step)`: raises `ValueError` when `step = 0`,
otherwise the arithmetic progression `start, start + step, ...`. -/

def pyRange (start stop step : Int) : Except String (List Int) :=
  if step = 0 then Except.error ("range() arg 3 must not be zero")
  else Except.ok ((List.range (pyRangeLen start stop step)).map (fun (k : Nat) => start + (k : Int) * step))

/-- Outcome of the loop of `ingest_data`: the `executemany` payloads in order
(each one is immediately followed by exactly one `conn.commit()`, source lines
198-199, so the batch list also enumerates the insert-plus-commit pairs), and
the final `inserted` counter. -/

structure IngestResult where
  batches : List (List Row)
  inserted : Nat
deriving DecidableEq

/-- `ingest_data` (source lines 178-212): the loop takes
`batch = rows[i : i + batch_size]` for `i in range(0, len(rows), batch_size)`
and accumulates `inserted += len(batch)`. -/

def ingest_data (rows : List Row) (batch_size : Int) : Except String IngestResult :=
  match pyRange 0 rows.length batch_size with
  | Except.error e => Except.error e
  | Except.ok idxs =>
    let batches := idxs.map (fun i => (rows.drop i.toNat).take batch_size.toNat)
    Except.ok { batches := batches, inserted := (batches.map List.length).sum }

/-- C2 counterexample: with a negative batch size the claim demands a fast
failure before any row is sent, but `range(0, len(rows), -1)` is simply empty,
so `ingest_data` completes without an error, sending nothing. -/

def specChunksF : Nat → Nat → List Row → List (List Row)
  | 0, _, _ => []
  | _ + 1, _, [] => []
  | f + 1, b, x :: xs => (x :: xs.take (b - 1)) :: specChunksF f b (xs.drop (b - 1))

/-- The partition demanded by the spec of a row list into consecutive chunks of size `b`. -/

def specChunks (b : Nat) (l : List Row) : List (List Row) := specChunksF l.length b l

structure Column where
  name : String
  sqlType : String
  nullable : Bool
deriving DecidableEq

/-- One Arrow schema field as the script reads it: name, printed type, nullable. -/

structure ArrowField where
  name : String
  ftype : String
  nullable : Bool
deriving DecidableEq

/-- A destination relation: identity, column definitions and stored rows. -/

structure TableDef where
  schemaName : String
  tableName : String
  columns : List Column
  rows : List Row
deriving DecidableEq

/-- Destination database state: existing schemas and tables. -/

structure DbState where
  schemas : List String
  tables : List TableDef
deriving DecidableEq

/-- A pymssql connection: statements act on the pending state, `commit` makes
it durable, and a close without commit discards the pending changes. -/

structure Conn where
  durable : DbState
  pending : DbState
deriving DecidableEq

def schemaExists (db : DbState) (s : String) : Bool := db.schemas.contains s

def tableExists (db : DbState) (s t : String) : Bool :=
  db.tables.any (fun td => td.schemaName == s && td.tableName == t)

/-- A single-quote character (ASCII 39) as a string. -/

def sglq : String := String.singleton (Char.ofNat 39)

/-- One issued SQL statement: its text and its bound parameters. -/

structure Stmt where
  sql : String
  params : List String
deriving DecidableEq

/-- Statement of source lines 145-149: the schema-existence check passes the
schema name as a bound parameter (`%s`), while the CREATE SCHEMA DDL embeds
the bracket-quoted identifier. -/

def stmtSchemaCheck (schema_name : String) : Stmt :=
  { sql := "IF NOT EXISTS (SELECT 1 FROM sys.schemas WHERE name = %s) EXEC(" ++ sglq ++
           "CREATE SCHEMA [" ++ schema_name ++ "]" ++ sglq ++ ")",
    params := [schema_name] }

/-- Statement of source line 153: the drop guarded by OBJECT_ID, with both
names interpolated into the SQL text as a quoted string literal. -/

def stmtDrop (schema_name table_name : String) : Stmt :=
  { sql := "IF OBJECT_ID(" ++ sglq ++ schema_name ++ "." ++ table_name ++ sglq ++ ", " ++ sglq ++
           "U" ++ sglq ++ ") IS NOT NULL DROP TABLE [" ++ schema_name ++ "].[" ++ table_name ++ "]",
    params := [] }

/-- One column line of the CREATE TABLE statement (source lines 155-159). -/

def columnLine (f : ArrowField) : String :=
  "    [" ++ f.name ++ "] " ++ arrow_type_to_sql f.ftype ++ " " ++
  (if f.nullable then ("NULL") else ("NOT NULL"))

/-- Statement of source lines 162-173: the table-existence check interpolates
the schema and table names into the SQL text as quoted string literals (no
bound parameters), then CREATE TABLE uses the bracket-quoted identifiers. -/

def stmtCreate (schema_name table_name : String) (fields : List ArrowField) : Stmt :=
  { sql := "\nIF NOT EXISTS (SELECT 1 FROM INFORMATION_SCHEMA.TABLES\n               WHERE TABLE_SCHEMA = " ++
           sglq ++ schema_name ++ sglq ++ " AND TABLE_NAME = " ++ sglq ++ table_name ++ sglq ++
           ")\nBEGIN\n    CREATE TABLE [" ++ schema_name ++ "].[" ++ table_name ++ "] (\n" ++
           String.intercalate (",\n") (fields.map columnLine) ++ "\n    )\nEND\n",
    params := [] }

/-- The statements `create_table_if_needed` issues, in order. -/

def stmtList (schema_name table_name : String) (fields : List ArrowField)
    (drop_existing : Bool) : List Stmt :=
  [stmtSchemaCheck schema_name] ++
  (if drop_existing then [stmtDrop schema_name table_name] else []) ++
  [stmtCreate schema_name table_name fields]

/-- Effect of the schema-ensure statement (source lines 145-149): create the
schema if it is absent. -/

def ensureSchemaDb (db : DbState) (s : String) : DbState :=
  if schemaExists db s then db else { db with schemas := db.schemas ++ [s] }

/-- Effect of the guarded drop statement (source line 153): remove the table
if present. -/

def dropTableDb (db : DbState) (s t : String) : DbState :=
  { db with tables := (db.tables.filter
      (fun td => !(td.schemaName == s && td.tableName == t))) }

/-- The table definition the CREATE TABLE statement produces (lines 155-168):
one column per Arrow field, in schema order, typed via arrow_type_to_sql. -/

def newTableDef (s t : String) (fields : List ArrowField) : TableDef :=
  { schemaName := s, tableName := t,
    columns := fields.map (fun f =>
      { name := f.name, sqlType := arrow_type_to_sql f.ftype, nullable := f.nullable }),
    rows := [] }

/-- Effect of the guarded CREATE TABLE statement (lines 162-173): create the
table if it is absent. -/

def createTableDb (db : DbState) (s t : String) (fields : List ArrowField) : DbState :=
  if tableExists db s t then db else { db with tables := (db.tables ++ [newTableDef s t fields]) }

/-- `create_table_if_needed` (source lines 138-175). Each executed statement is
modelled by the state transition its SQL performs on the pending state:
create-schema-if-absent, optional drop-if-present, create-table-if-absent;
the final `conn.commit()` (line 174) then makes the pending state durable.
Returned alongside: the issued statements and whether the guarded CREATE TABLE
was effective. -/

def create_table_if_needed (conn : Conn) (schema_name table_name : String)
    (fields : List ArrowField) (drop_existing : Bool) : Conn × List Stmt × Bool :=
  let db1 := ensureSchemaDb conn.pending schema_name
  let db2 := if drop_existing then dropTableDb db1 schema_name table_name else db1
  let created := !(tableExists db2 schema_name table_name)
  let db3 := createTableDb db2 schema_name table_name fields
  ({ durable := db3, pending := db3 },
   stmtList schema_name table_name fields drop_existing, created)

def emptyConn : Conn :=
  { durable := { schemas := [], tables := [] }, pending := { schemas := [], tables := [] } }

/-- C5: with dropExisting = false, starting from a destination where the
relation is absent, the first ensureRelation call performs the one effective
CREATE TABLE; the second call is a no-op — its guarded CREATE TABLE is not
effective and it leaves the connection state (hence the column set and types
of the relation) exactly as the first call left it. -/

def insertRows (db : DbState) (s t : String) (batch : List Row) : DbState :=
  { db with tables := (db.tables.map (fun td =>
      if td.schemaName == s && td.tableName == t then { td with rows := td.rows ++ batch }
      else td)) }

/-- Observable destination-connection events of one pipeline run. -/

inductive RunEvent where
  | connect
  | ddl
  | ddlCommit
  | batchInsert (n : Nat)
  | batchCommit
  | close
deriving DecidableEq

/-- Failure oracle standing for destination errors: whether the schema
reconciliation raises (before its commit), and whether the executemany of
batch i raises. -/

structure FailureOracle where
  reconcileFails : Bool
  batchFails : Nat → Bool

/-- The per-batch loop of ingest_data (source lines 196-209): for each batch
one executemany then one commit; a failing executemany aborts the loop with
the pending changes of that batch never committed. -/

def ingestLoop (s t : String) (failAt : Nat → Bool) :
    Conn → List (List Row) → Nat → Conn × List RunEvent × Bool
  | conn, [], _ => (conn, [], true)
  | conn, b :: bs, i =>
    if failAt i then (conn, [], false)
    else
      let db' := insertRows conn.pending s t b
      let r := ingestLoop s t failAt { durable := db', pending := db' } bs (i + 1)
      (r.1, RunEvent.batchInsert b.length :: RunEvent.batchCommit :: r.2.1, r.2.2)

/-- Result of one orchestrated run: whether a destination connection was
opened, the connection events, the final durable destination state, and
whether the run succeeded. -/

structure RunOutcome where
  connOpened : Bool
  events : List RunEvent
  finalDb : DbState
  ok : Bool
deriving DecidableEq

/-- `run` (source lines 215-252), from the point where the scan has
materialized: the empty-result short-circuit returns before any destination
work; otherwise connect, then `create_table_if_needed` and `ingest_data`
inside `try ... finally conn.close()`. A close without commit discards the
pending state, so the final durable state is the durable part of the connection.
If the reconciliation raises (`oracle.reconcileFails`), nothing was committed
and close rolls the destination back to its initial state. -/

def run (db : DbState) (target_schema target_table : String) (fields : List ArrowField)
    (rows : List Row) (drop_existing : Bool) (batch_size : Int)
    (oracle : FailureOracle) : RunOutcome :=
  if rows.isEmpty then
    { connOpened := false, events := [], finalDb := db, ok := true }
  else if oracle.reconcileFails then
    { connOpened := true, events := [RunEvent.connect, RunEvent.close], finalDb := db, ok := false }
  else
    let conn0 : Conn := { durable := db, pending := db }
    let r1 := create_table_if_needed conn0 target_schema target_table fields drop_existing
    match ingest_data rows batch_size with
    | Except.error _ =>
      { connOpened := true,
        events := [RunEvent.connect, RunEvent.ddl, RunEvent.ddlCommit, RunEvent.close],
        finalDb := r1.1.durable, ok := false }
    | Except.ok res =>
      let r2 := ingestLoop target_schema target_table oracle.batchFails r1.1 res.batches 0
      { connOpened := true,
        events := [RunEvent.connect, RunEvent.ddl, RunEvent.ddlCommit] ++ r2.2.1 ++
          [RunEvent.close],
        finalDb := r2.1.durable, ok := r2.2.2 }

/-- C6: when the materialized row count is zero the orchestrator returns
before any destination work: no connection is opened and the destination
state is untouched (nothing created or dropped). -/

structure IcebergCfg where
  catalog_name : Option String := none
  nspace : Option String := none
  table : Option String := none
deriving DecidableEq

/-- The `sql_server` section of the configuration mapping. -/

structure SqlServerCfg where
  host : Option String := none
  port : Option Int := none
  database : Option String := none
  user : Option String := none
  password : Option String := none
  target_schema : Option String := none
  target_table : Option String := none
  batch_size : Option Int := none
  drop_existing : Option Bool := none
deriving DecidableEq

/-- The whole configuration mapping loaded from the YAML file. -/

structure AppConfig where
  iceberg : IcebergCfg := {}
  sql_server : SqlServerCfg := {}
deriving DecidableEq

/-- The parsed command-line arguments of `main` (source lines 256-320);
a flag the user did not pass is `none` (`store_true` flags default false). -/

structure CliArgs where
  iceberg_catalog_name : Option String := none
  iceberg_namespace : Option String := none
  iceberg_table : Option String := none
  sql_host : Option String := none
  sql_port : Option Int := none
  sql_database : Option String := none
  sql_user : Option String := none
  sql_password : Option String := none
  sql_target_schema : Option String := none
  sql_target_table : Option String := none
  batch_size : Option Int := none
  drop_existing : Bool := false
  verbose : Bool := false
deriving DecidableEq

/-- One `if args.x: config[...] = args.x` block for a string flag: Python
truthiness keeps the old value when the flag is absent or the empty string. -/

def ovStr (old new : Option String) : Option String :=
  match new with
  | some v => if v = "" then old else some v
  | none => old

/-- The integer variant: a supplied value of 0 is falsy and is ignored. -/

def ovInt (old new : Option Int) : Option Int :=
  match new with
  | some v => if v = 0 then old else some v
  | none => old

/-- The CLI override block of `main` (source lines 328-351): each recognized
flag is written to its key-path, guarded by Python truthiness of the value. -/

def applyOverrides (cfg : AppConfig) (a : CliArgs) : AppConfig :=
  { iceberg :=
      { catalog_name := ovStr cfg.iceberg.catalog_name a.iceberg_catalog_name,
        nspace := ovStr cfg.iceberg.nspace a.iceberg_namespace,
        table := ovStr cfg.iceberg.table a.iceberg_table },
    sql_server :=
      { host := ovStr cfg.sql_server.host a.sql_host,
        port := ovInt cfg.sql_server.port a.sql_port,
        database := ovStr cfg.sql_server.database a.sql_database,
        user := ovStr cfg.sql_server.user a.sql_user,
        password := ovStr cfg.sql_server.password a.sql_password,
        target_schema := ovStr cfg.sql_server.target_schema a.sql_target_schema,
        target_table := ovStr cfg.sql_server.target_table a.sql_target_table,
        batch_size := ovInt cfg.sql_server.batch_size a.batch_size,
        drop_existing := if a.drop_existing then some true
                         else cfg.sql_server.drop_existing } }

/-- Outcome of the argument handling in `main`: the process log level (Python
logging constants: DEBUG = 10, INFO = 20) and the config handed to `run`. -/

structure MainResult where
  logLevel : Nat
  config : AppConfig
deriving DecidableEq

/-- `main` (source lines 320-353) up to the `run(config)` call: `--verbose`
only raises the log level, then the overridden config is passed on. -/

def mainApply (fileCfg : AppConfig) (a : CliArgs) : MainResult :=
  { logLevel := if a.verbose then 10 else 20, config := applyOverrides fileCfg a }

/-- C9 counterexample: the user supplies `--batch-size 0`; the claim demands
the resulting configuration hold batch_size 0, but `if args.batch_size:` is
false for 0, so the file value 1000 survives. -/

theorem c1_unsigned_promotion_shadowed_by_signed_keys :
  arrow_type_to_sql ("int8") = "TINYINT" ∧
  arrow_type_to_sql ("int16") = "SMALLINT" ∧
  arrow_type_to_sql ("int32") = "INT" ∧
  arrow_type_to_sql ("int64") = "BIGINT" ∧
  arrow_type_to_sql ("uint64") = "BIGINT" ∧
  dictLookup ICEBERG_TO_SQL_TYPE_MAP ("uint8") = some ("SMALLINT") ∧
  dictLookup ICEBERG_TO_SQL_TYPE_MAP ("uint16") = some ("INT") ∧
  dictLookup ICEBERG_TO_SQL_TYPE_MAP ("uint32") = some ("BIGINT") ∧
  arrow_type_to_sql ("uint8") = "TINYINT" ∧
  arrow_type_to_sql ("uint16") = "SMALLINT" ∧
  arrow_type_to_sql ("uint32") = "INT" := by
  decide

/-- A row tuple; cell values are not interpreted by the ingestion core. -/

theorem c2_counterexample_negative_batch_size_is_silently_accepted :
  ingest_data [["a"]] (-1) = Except.ok { batches := [], inserted := 0 } := by
  rfl

/-- C2 (amended): with `batchSize = 0` ingest raises the range error before any
row is sent; with a negative `batchSize` no error is raised — the loop body
never runs, so no row is sent but the invalid value is silently accepted. -/

theorem c2_zero_raises_negative_silently_sends_nothing (rows : List Row) :
  ingest_data rows 0 = Except.error ("range() arg 3 must not be zero") ∧
  (∀ B : Int, B < 0 → ingest_data rows B = Except.ok { batches := [], inserted := 0 }) := by
  constructor
  · simp [ingest_data, pyRange]
  · intro B hB
    have hB0 : B ≠ 0 := by omega
    have hlen : pyRangeLen 0 rows.length B = 0 := by
      have hstep : ¬(0 < B) := by omega
      have h1 : (0 - (rows.length : Int) + -B - 1) ≤ (-B) - 1 := by
        have : (0 : Int) ≤ rows.length := Int.natCast_nonneg _
        omega
      have h2 : (0 - (rows.length : Int) + -B - 1) / (-B) ≤ ((-B) - 1) / (-B) :=
        Int.ediv_le_ediv (by omega) h1
      have h3 : ((-B) - 1) / (-B) = 0 := Int.ediv_eq_zero_of_lt (by omega) (by omega)
      simp only [pyRangeLen, if_neg hstep]
      exact Int.toNat_of_nonpos (by omega)
    simp [ingest_data, pyRange, hB0, hlen]

/-- C2 witness: the amended statement evaluated at one concrete row set and
batch size -2. -/

theorem c2_zero_raises_negative_silently_sends_nothing_witness :
  ingest_data [["a"], ["b"]] 0 = Except.error ("range() arg 3 must not be zero") ∧
  ingest_data [["a"], ["b"]] (-2) = Except.ok { batches := [], inserted := 0 } :=
  ⟨(c2_zero_raises_negative_silently_sends_nothing [["a"], ["b"]]).1,
   (c2_zero_raises_negative_silently_sends_nothing [["a"], ["b"]]).2 (-2) (by decide)⟩

/-- Modelled from the spec wording of the batch partition ("consecutive batches
of at most batchSize tuples each, last batch may be shorter"): fuel-indexed
consecutive chunking, to be compared with the range-and-slice batching the
source computes. -/

theorem specChunksF_nil (f b : Nat) : specChunksF f b [] = [] := by
  cases f <;> rfl

theorem specChunksF_flatten (f : Nat) :
    ∀ (b : Nat) (l : List Row), l.length ≤ f → (specChunksF f b l).flatten = l := by
  induction f with
  | zero =>
    intro b l hl
    have : l = [] := List.eq_nil_of_length_eq_zero (Nat.le_zero.mp hl)
    subst this
    rfl
  | succ f ih =>
    intro b l hl
    cases l with
    | nil => rfl
    | cons x xs =>
      have hxs : (xs.drop (b - 1)).length ≤ f := by
        simp only [List.length_drop]
        simp only [List.length_cons] at hl
        omega
      simp only [specChunksF, List.flatten_cons, ih b _ hxs, List.cons_append,
        List.take_append_drop]

theorem specChunksF_mem (f : Nat) :
    ∀ (b : Nat) (l : List Row), 0 < b → l.length ≤ f →
      ∀ c ∈ specChunksF f b l, c.length ≤ b ∧ c ≠ [] := by
  induction f with
  | zero =>
    intro b l _ hl
    have : l = [] := List.eq_nil_of_length_eq_zero (Nat.le_zero.mp hl)
    subst this
    simp [specChunksF_nil]
  | succ f ih =>
    intro b l hb hl
    cases l with
    | nil => simp [specChunksF_nil]
    | cons x xs =>
      intro c hc
      simp only [specChunksF, List.mem_cons] at hc
      rcases hc with hc | hc
      · subst hc
        constructor
        · simp only [List.length_cons, List.length_take]
          omega
        · simp
      · have hxs : (xs.drop (b - 1)).length ≤ f := by
          simp only [List.length_drop]
          simp only [List.length_cons] at hl
          omega
        exact ih b _ hb hxs c hc

theorem specChunksF_length (f : Nat) :
    ∀ (b : Nat) (l : List Row), 0 < b → l.length ≤ f →
      (specChunksF f b l).length = (l.length + b - 1) / b := by
  induction f with
  | zero =>
    intro b l hb hl
    have : l = [] := List.eq_nil_of_length_eq_zero (Nat.le_zero.mp hl)
    subst this
    simp [specChunksF_nil, Nat.div_eq_of_lt (show b - 1 < b by omega)]
  | succ f ih =>
    intro b l hb hl
    cases l with
    | nil => simp [specChunksF_nil, Nat.div_eq_of_lt (show b - 1 < b by omega)]
    | cons x xs =>
      have hxs : (xs.drop (b - 1)).length ≤ f := by
        simp only [List.length_drop]
        simp only [List.length_cons] at hl
        omega
      simp only [specChunksF, List.length_cons, ih b _ hb hxs, List.length_drop]
      have hnum : xs.length + 1 + b - 1 = xs.length + b := by omega
      rw [hnum, Nat.add_div_right _ hb]
      rcases le_or_lt (b - 1) xs.length with hcase | hcase
      · have : xs.length - (b - 1) + b - 1 = xs.length := by omega
        rw [this]
      · have h0 : xs.length - (b - 1) = 0 := by omega
        rw [h0]
        have h1 : (0 + b - 1) / b = 0 := Nat.div_eq_of_lt (by omega)
        have h2 : xs.length / b = 0 := Nat.div_eq_of_lt (by omega)
        rw [h1, h2]

theorem specChunksF_dropLast (f : Nat) :
    ∀ (b : Nat) (l : List Row), 0 < b → l.length ≤ f →
      ∀ c ∈ (specChunksF f b l).dropLast, c.length = b := by
  induction f with
  | zero =>
    intro b l _ hl
    have : l = [] := List.eq_nil_of_length_eq_zero (Nat.le_zero.mp hl)
    subst this
    simp [specChunksF_nil]
  | succ f ih =>
    intro b l hb hl
    cases l with
    | nil => simp [specChunksF_nil]
    | cons x xs =>
      have hxs : (xs.drop (b - 1)).length ≤ f := by
        simp only [List.length_drop]
        simp only [List.length_cons] at hl
        omega
      simp only [specChunksF]
      cases hr : specChunksF f b (xs.drop (b - 1)) with
      | nil => simp
      | cons r rs =>
        intro c hc
        rw [List.dropLast_cons₂] at hc
        rcases List.mem_cons.mp hc with hc1 | hc2
        · subst hc1
          have hne : xs.drop (b - 1) ≠ [] := by
            intro h0
            rw [h0, specChunksF_nil] at hr
            exact List.noConfusion hr
          have hlen : b - 1 < xs.length := by
            by_contra hcon
            exact hne (List.drop_eq_nil_of_le (by omega))
          simp only [List.length_cons, List.length_take]
          omega
        · have := ih b (xs.drop (b - 1)) hb hxs c
          rw [hr] at this
          exact this hc2

theorem range_map_eq_specChunksF (b : Nat) (hb : 0 < b) :
    ∀ (f : Nat) (l : List Row), l.length ≤ f →
      (List.range ((l.length + b - 1) / b)).map (fun k => (l.drop (k * b)).take b) =
        specChunksF f b l := by
  intro f
  induction f with
  | zero =>
    intro l hl
    have : l = [] := List.eq_nil_of_length_eq_zero (Nat.le_zero.mp hl)
    subst this
    simp [specChunksF_nil, Nat.div_eq_of_lt (show b - 1 < b by omega)]
  | succ f ih =>
    intro l hl
    cases l with
    | nil => simp [specChunksF_nil, Nat.div_eq_of_lt (show b - 1 < b by omega)]
    | cons x xs =>
      have hxs : (xs.drop (b - 1)).length ≤ f := by
        simp only [List.length_drop]
        simp only [List.length_cons] at hl
        omega
      have hm : (x :: xs).length + b - 1 = xs.length + b := by
        simp only [List.length_cons]
        omega
      rw [hm, Nat.add_div_right _ hb, List.range_succ_eq_map, List.map_cons, List.map_map]
      have hhead : ((x :: xs).drop (0 * b)).take b = x :: xs.take (b - 1) := by
        rw [Nat.zero_mul, List.drop_zero]
        cases b with
        | zero => omega
        | succ n => simp [List.take_succ_cons]
      have htail :
          (List.range (xs.length / b)).map ((fun k => ((x :: xs).drop (k * b)).take b) ∘ Nat.succ) =
            specChunksF f b (xs.drop (b - 1)) := by
        have hdiv : ((xs.drop (b - 1)).length + b - 1) / b = xs.length / b := by
          simp only [List.length_drop]
          rcases le_or_lt (b - 1) xs.length with hcase | hcase
          · have : xs.length - (b - 1) + b - 1 = xs.length := by omega
            rw [this]
          · have h0 : xs.length - (b - 1) = 0 := by omega
            rw [h0]
            have h1 : (0 + b - 1) / b = 0 := Nat.div_eq_of_lt (by omega)
            have h2 : xs.length / b = 0 := Nat.div_eq_of_lt (by omega)
            rw [h1, h2]
        rw [← ih (xs.drop (b - 1)) hxs, hdiv]
        apply List.map_congr_left
        intro k _
        simp only [Function.comp_apply]
        have hmul : Nat.succ k * b = b + k * b := by
          rw [Nat.succ_mul, Nat.add_comm]
        rw [hmul, ← List.drop_drop]
        have hdropb : (x :: xs).drop b = xs.drop (b - 1) := by
          cases b with
          | zero => omega
          | succ n => simp [List.drop_succ_cons]
        rw [hdropb]
      rw [hhead, htail]
      rfl

/-- For a positive batch size, `ingest_data` computes exactly the spec's
consecutive-chunk partition and counts every row. -/

theorem ingest_data_eq_specChunks (rows : List Row) (B : Int) (hB : 0 < B) :
    ingest_data rows B =
      Except.ok { batches := specChunks B.toNat rows, inserted := rows.length } := by
  obtain ⟨b, rfl⟩ : ∃ b : Nat, B = (b : Int) :=
    ⟨B.toNat, (Int.toNat_of_nonneg (le_of_lt hB)).symm⟩
  have hb : 0 < b := by exact_mod_cast hB
  have hB0 : (b : Int) ≠ 0 := by exact_mod_cast hb.ne'
  have htn : ((b : Int)).toNat = b := Int.toNat_natCast b
  have hlen : pyRangeLen 0 (rows.length : Int) (b : Int) = (rows.length + b - 1) / b := by
    simp only [pyRangeLen, if_pos hB]
    have h1 : ((rows.length : Int) - 0 + (b : Int) - 1) = ((rows.length + b - 1 : Nat) : Int) := by
      omega
    rw [h1, ← Int.natCast_div, Int.toNat_natCast]
  have key :
      ((List.range (pyRangeLen 0 (rows.length : Int) (b : Int))).map
            (fun k : Nat => (0 : Int) + (k : Int) * (b : Int))).map
          (fun i : Int => (rows.drop i.toNat).take b) =
        specChunks b rows := by
    rw [List.map_map, hlen]
    have hcong :
        (List.range ((rows.length + b - 1) / b)).map
            ((fun i : Int => (rows.drop i.toNat).take b) ∘
              fun k : Nat => (0 : Int) + (k : Int) * (b : Int)) =
          (List.range ((rows.length + b - 1) / b)).map
            (fun k : Nat => (rows.drop (k * b)).take b) := by
      apply List.map_congr_left
      intro k _
      simp only [Function.comp_apply]
      have hidx : ((0 : Int) + (k : Int) * (b : Int)) = ((k * b : Nat) : Int) := by
        push_cast
        ring
      rw [hidx, Int.toNat_natCast]
    rw [hcong]
    exact range_map_eq_specChunksF b hb rows.length rows (Nat.le_refl _)
  have hins : ((specChunks b rows).map List.length).sum = rows.length := by
    rw [← List.length_flatten, specChunks,
      specChunksF_flatten rows.length b rows (Nat.le_refl _)]
  simp only [ingest_data, pyRange, if_neg hB0, htn]
  rw [key, hins]

/-- C3: for a non-empty row set and positive batch size B, ingest partitions
the rows in input order into consecutive batches of at most B rows (all
full-size except possibly the last), issues ceil(R/B) executemany-plus-commit
pairs (one per batch, source lines 198-199), and ends with inserted = R. -/

theorem c3_batches_partition_rows_with_ceil_commits (rows : List Row) (B : Int)
    (hrows : rows ≠ []) (hB : 0 < B) :
    ingest_data rows B =
      Except.ok { batches := specChunks B.toNat rows, inserted := rows.length } ∧
    (specChunks B.toNat rows).flatten = rows ∧
    (∀ c ∈ specChunks B.toNat rows, c.length ≤ B.toNat ∧ c ≠ []) ∧
    (∀ c ∈ (specChunks B.toNat rows).dropLast, c.length = B.toNat) ∧
    (specChunks B.toNat rows).length = (rows.length + B.toNat - 1) / B.toNat := by
  have hb : 0 < B.toNat := by omega
  refine ⟨ingest_data_eq_specChunks rows B hB, ?_, ?_, ?_, ?_⟩
  · exact specChunksF_flatten rows.length B.toNat rows (Nat.le_refl _)
  · exact specChunksF_mem rows.length B.toNat rows hb (Nat.le_refl _)
  · exact specChunksF_dropLast rows.length B.toNat rows hb (Nat.le_refl _)
  · exact specChunksF_length rows.length B.toNat rows hb (Nat.le_refl _)

/-- C3 witness: five rows with batch size 2 give three batches 2/2/1, three
commits, and a final count of 5. -/

theorem c3_batches_partition_rows_with_ceil_commits_witness :
    ingest_data [["a"], ["b"], ["c"], ["d"], ["e"]] 2 =
      Except.ok { batches := specChunks (2 : Int).toNat [["a"], ["b"], ["c"], ["d"], ["e"]],
                  inserted := 5 } ∧
    (specChunks (2 : Int).toNat [["a"], ["b"], ["c"], ["d"], ["e"]]).length = 3 := by
  have h := c3_batches_partition_rows_with_ceil_commits [["a"], ["b"], ["c"], ["d"], ["e"]] 2
    (by decide) (by decide)
  exact ⟨h.1, by decide⟩


/-- One column of the destination relation, as produced from an Arrow field
(source lines 155-159). -/

theorem tables_ensureSchemaDb (db : DbState) (s : String) :
    (ensureSchemaDb db s).tables = db.tables := by
  simp only [ensureSchemaDb]
  split <;> rfl

theorem schemaExists_ensureSchemaDb (db : DbState) (s : String) :
    schemaExists (ensureSchemaDb db s) s = true := by
  simp only [ensureSchemaDb]
  split
  · assumption
  · simp [schemaExists]

theorem schemas_dropTableDb (db : DbState) (s t : String) :
    (dropTableDb db s t).schemas = db.schemas := rfl

theorem schemas_createTableDb (db : DbState) (s t : String) (fs : List ArrowField) :
    (createTableDb db s t fs).schemas = db.schemas := by
  simp only [createTableDb]
  split <;> rfl

theorem tableExists_createTableDb (db : DbState) (s t : String) (fs : List ArrowField) :
    tableExists (createTableDb db s t fs) s t = true := by
  by_cases h : tableExists db s t = true
  · simp [createTableDb, h]
  · simp only [createTableDb]
    rw [if_neg (by simp [h])]
    simp [tableExists, List.any_append, newTableDef]

theorem createTableDb_of_exists (db : DbState) (s t : String) (fs : List ArrowField)
    (h : tableExists db s t = true) : createTableDb db s t fs = db := by
  simp [createTableDb, h]

theorem ensureSchemaDb_of_exists (db : DbState) (s : String)
    (h : schemaExists db s = true) : ensureSchemaDb db s = db := by
  simp [ensureSchemaDb, h]

theorem create_table_durable_eq_pending (c : Conn) (s t : String) (fs : List ArrowField)
    (d : Bool) :
    (create_table_if_needed c s t fs d).1.durable =
      (create_table_if_needed c s t fs d).1.pending := rfl

theorem create_table_pending_tableExists (c : Conn) (s t : String) (fs : List ArrowField)
    (d : Bool) :
    tableExists (create_table_if_needed c s t fs d).1.pending s t = true := by
  simp only [create_table_if_needed]
  exact tableExists_createTableDb _ s t fs

theorem create_table_pending_schemaExists (c : Conn) (s t : String) (fs : List ArrowField)
    (d : Bool) :
    schemaExists (create_table_if_needed c s t fs d).1.pending s = true := by
  simp only [create_table_if_needed, schemaExists]
  rw [schemas_createTableDb]
  have h2 : (if d = true then dropTableDb (ensureSchemaDb c.pending s) s t
      else ensureSchemaDb c.pending s).schemas = (ensureSchemaDb c.pending s).schemas := by
    split
    · exact congrArg DbState.schemas rfl |>.trans (schemas_dropTableDb _ s t)
    · rfl
  rw [h2]
  exact schemaExists_ensureSchemaDb c.pending s

theorem create_table_noop_of_exists (c : Conn) (s t : String) (fs : List ArrowField)
    (h1 : schemaExists c.pending s = true) (h2 : tableExists c.pending s t = true) :
    create_table_if_needed c s t fs false =
      ({ durable := c.pending, pending := c.pending }, stmtList s t fs false, false) := by
  simp only [create_table_if_needed, Bool.false_eq_true, if_false,
    ensureSchemaDb_of_exists c.pending s h1, createTableDb_of_exists c.pending s t fs h2, h2,
    Bool.not_true]

/-- An empty destination, used to evaluate concrete scenarios. -/

theorem c5_ensure_relation_idempotent_without_drop (conn : Conn) (sname tname : String)
    (fields : List ArrowField) (habs : tableExists conn.pending sname tname = false) :
    (create_table_if_needed conn sname tname fields false).2.2 = true ∧
    (create_table_if_needed (create_table_if_needed conn sname tname fields false).1
        sname tname fields false).2.2 = false ∧
    (create_table_if_needed (create_table_if_needed conn sname tname fields false).1
        sname tname fields false).1 =
      (create_table_if_needed conn sname tname fields false).1 := by
  refine ⟨?_, ?_, ?_⟩
  · simp only [create_table_if_needed, Bool.false_eq_true, if_false]
    have h : tableExists (ensureSchemaDb conn.pending sname) sname tname =
        tableExists conn.pending sname tname := by
      simp [tableExists, tables_ensureSchemaDb]
    rw [h, habs]
    rfl
  · rw [create_table_noop_of_exists (create_table_if_needed conn sname tname fields false).1
      sname tname fields
      (create_table_pending_schemaExists conn sname tname fields false)
      (create_table_pending_tableExists conn sname tname fields false)]
  · rw [create_table_noop_of_exists (create_table_if_needed conn sname tname fields false).1
      sname tname fields
      (create_table_pending_schemaExists conn sname tname fields false)
      (create_table_pending_tableExists conn sname tname fields false)]
    show ({ durable := (create_table_if_needed conn sname tname fields false).1.pending,
            pending := (create_table_if_needed conn sname tname fields false).1.pending } : Conn) =
      (create_table_if_needed conn sname tname fields false).1
    nth_rewrite 1 [← create_table_durable_eq_pending conn sname tname fields false]
    rfl

/-- C5 witness: the idempotence scenario evaluated on an empty destination with
one concrete field. -/

theorem c5_ensure_relation_idempotent_without_drop_witness :
    (create_table_if_needed emptyConn ("dbo") "users"
        [{ name := "id", ftype := "int32", nullable := false }] false).2.2 = true ∧
    (create_table_if_needed (create_table_if_needed emptyConn ("dbo") "users"
          [{ name := "id", ftype := "int32", nullable := false }] false).1
        "dbo" "users" [{ name := "id", ftype := "int32", nullable := false }] false).2.2 = false ∧
    (create_table_if_needed (create_table_if_needed emptyConn ("dbo") "users"
          [{ name := "id", ftype := "int32", nullable := false }] false).1
        "dbo" "users" [{ name := "id", ftype := "int32", nullable := false }] false).1 =
      (create_table_if_needed emptyConn ("dbo") "users"
        [{ name := "id", ftype := "int32", nullable := false }] false).1 :=
  c5_ensure_relation_idempotent_without_drop emptyConn ("dbo") "users"
    [{ name := "id", ftype := "int32", nullable := false }] (by decide)

/-- Effect of one `cursor.executemany(insert_sql, batch)` (source line 198):
append the rows of the batch to the target table in the pending state. -/

theorem c6_empty_result_short_circuits_without_connection (db : DbState)
    (target_schema target_table : String) (fields : List ArrowField) (rows : List Row)
    (drop_existing : Bool) (batch_size : Int) (oracle : FailureOracle)
    (h : rows = []) :
    run db target_schema target_table fields rows drop_existing batch_size oracle =
      { connOpened := false, events := [], finalDb := db, ok := true } := by
  subst h
  rfl

/-- C6 witness: the short-circuit evaluated at a concrete configuration. -/

theorem c6_empty_result_short_circuits_without_connection_witness :
    run { schemas := ["dbo"], tables := [] } "dbo" "users"
        [{ name := "id", ftype := "int32", nullable := false }] [] false 1000
        { reconcileFails := false, batchFails := fun _ => false } =
      { connOpened := false, events := [], finalDb := { schemas := ["dbo"], tables := [] },
        ok := true } :=
  c6_empty_result_short_circuits_without_connection { schemas := ["dbo"], tables := [] }
    "dbo" "users" [{ name := "id", ftype := "int32", nullable := false }] [] false 1000
    { reconcileFails := false, batchFails := fun _ => false } rfl

theorem ingestLoop_no_connect_close (s t : String) (failAt : Nat → Bool) :
    ∀ (bs : List (List Row)) (conn : Conn) (i : Nat),
      RunEvent.connect ∉ (ingestLoop s t failAt conn bs i).2.1 ∧
      RunEvent.close ∉ (ingestLoop s t failAt conn bs i).2.1 := by
  intro bs
  induction bs with
  | nil =>
    intro conn i
    simp [ingestLoop]
  | cons b bs ih =>
    intro conn i
    by_cases hf : failAt i
    · simp [ingestLoop, hf]
    · simp only [ingestLoop, if_neg hf]
      constructor
      · intro hmem
        simp only [List.mem_cons] at hmem
        rcases hmem with h | h | h
        · exact RunEvent.noConfusion h
        · exact RunEvent.noConfusion h
        · exact (ih _ _).1 h
      · intro hmem
        simp only [List.mem_cons] at hmem
        rcases hmem with h | h | h
        · exact RunEvent.noConfusion h
        · exact RunEvent.noConfusion h
        · exact (ih _ _).2 h

theorem insertRows_tableExists (db : DbState) (s t : String) (batch : List Row)
    (s' t' : String) :
    tableExists (insertRows db s t batch) s' t' = tableExists db s' t' := by
  simp only [tableExists, insertRows, List.any_map]
  congr 1
  funext td
  by_cases hc : (td.schemaName == s && td.tableName == t) = true
  · simp [Function.comp, hc]
  · simp [Function.comp, hc]

theorem insertRows_schemas (db : DbState) (s t : String) (batch : List Row) :
    (insertRows db s t batch).schemas = db.schemas := rfl

theorem ingestLoop_preserves_relation (s t : String) (failAt : Nat → Bool) :
    ∀ (bs : List (List Row)) (conn : Conn) (i : Nat),
      tableExists conn.durable s t = true → tableExists conn.pending s t = true →
      schemaExists conn.durable s = true → schemaExists conn.pending s = true →
      tableExists (ingestLoop s t failAt conn bs i).1.durable s t = true ∧
      schemaExists (ingestLoop s t failAt conn bs i).1.durable s = true := by
  intro bs
  induction bs with
  | nil =>
    intro conn i h1 _ h3 _
    exact ⟨h1, h3⟩
  | cons b bs ih =>
    intro conn i h1 h2 h3 h4
    by_cases hf : failAt i
    · simp only [ingestLoop, if_pos hf]
      exact ⟨h1, h3⟩
    · simp only [ingestLoop, if_neg hf]
      refine ih _ (i + 1) ?_ ?_ ?_ ?_
      · show tableExists (insertRows conn.pending s t b) s t = true
        rw [insertRows_tableExists]
        exact h2
      · show tableExists (insertRows conn.pending s t b) s t = true
        rw [insertRows_tableExists]
        exact h2
      · show schemaExists (insertRows conn.pending s t b) s = true
        simpa [schemaExists, insertRows_schemas] using h4
      · show schemaExists (insertRows conn.pending s t b) s = true
        simpa [schemaExists, insertRows_schemas] using h4

/-- C7: past the empty-result check, one and only one destination connection
is opened, reconciliation and ingestion both run on it, and it is closed on
every exit path — the event trace ends with close whatever the failure
oracle says, whether ingestion completes or reconciliation or any batch
insert raises. -/

theorem c7_single_connection_closed_on_every_path (db : DbState)
    (target_schema target_table : String) (fields : List ArrowField) (rows : List Row)
    (drop_existing : Bool) (batch_size : Int) (oracle : FailureOracle)
    (h : rows ≠ []) :
    (run db target_schema target_table fields rows drop_existing batch_size oracle).connOpened
        = true ∧
    (run db target_schema target_table fields rows drop_existing batch_size
        oracle).events.count RunEvent.connect = 1 ∧
    (run db target_schema target_table fields rows drop_existing batch_size
        oracle).events.count RunEvent.close = 1 ∧
    (run db target_schema target_table fields rows drop_existing batch_size
        oracle).events.getLast? = some RunEvent.close := by
  rcases rows with _ | ⟨x, xs⟩
  · exact absurd rfl h
  · simp only [run, List.isEmpty_cons, Bool.false_eq_true, if_false]
    by_cases hrf : oracle.reconcileFails = true
    · rw [if_pos hrf]
      exact ⟨rfl, rfl, rfl, rfl⟩
    · rw [if_neg hrf]
      rcases hing : ingest_data (x :: xs) batch_size with e | res
      · exact ⟨rfl, rfl, rfl, rfl⟩
      · have hnc := ingestLoop_no_connect_close target_schema target_table oracle.batchFails
          res.batches (create_table_if_needed { durable := db, pending := db }
            target_schema target_table fields drop_existing).1 0
        refine ⟨rfl, ?_, ?_, ?_⟩
        · show ([RunEvent.connect, RunEvent.ddl, RunEvent.ddlCommit] ++
              ((ingestLoop target_schema target_table oracle.batchFails
                  (create_table_if_needed { durable := db, pending := db }
                    target_schema target_table fields drop_existing).1 res.batches 0).2.1 ++
                [RunEvent.close])).count RunEvent.connect = 1
          simp only [List.count_append]
          rw [List.count_eq_zero.mpr hnc.1]
          rfl
        · show ([RunEvent.connect, RunEvent.ddl, RunEvent.ddlCommit] ++
              ((ingestLoop target_schema target_table oracle.batchFails
                  (create_table_if_needed { durable := db, pending := db }
                    target_schema target_table fields drop_existing).1 res.batches 0).2.1 ++
                [RunEvent.close])).count RunEvent.close = 1
          simp only [List.count_append]
          rw [List.count_eq_zero.mpr hnc.2]
          rfl
        · show ([RunEvent.connect, RunEvent.ddl, RunEvent.ddlCommit] ++
              ((ingestLoop target_schema target_table oracle.batchFails
                  (create_table_if_needed { durable := db, pending := db }
                    target_schema target_table fields drop_existing).1 res.batches 0).2.1 ++
                [RunEvent.close])).getLast? = some RunEvent.close
          rw [← List.append_assoc, List.getLast?_concat]

/-- C7 witness: a concrete run of one row whose only batch insert raises; the
trace still opens exactly one connection and ends with close. -/

theorem c7_single_connection_closed_on_every_path_witness :
    (run { schemas := [], tables := [] } "dbo" "users"
        [{ name := "id", ftype := "int32", nullable := false }] [["1"]] false 1
        { reconcileFails := false, batchFails := fun _ => true }).connOpened = true ∧
    (run { schemas := [], tables := [] } "dbo" "users"
        [{ name := "id", ftype := "int32", nullable := false }] [["1"]] false 1
        { reconcileFails := false, batchFails := fun _ => true }).events.count
          RunEvent.connect = 1 ∧
    (run { schemas := [], tables := [] } "dbo" "users"
        [{ name := "id", ftype := "int32", nullable := false }] [["1"]] false 1
        { reconcileFails := false, batchFails := fun _ => true }).events.count
          RunEvent.close = 1 ∧
    (run { schemas := [], tables := [] } "dbo" "users"
        [{ name := "id", ftype := "int32", nullable := false }] [["1"]] false 1
        { reconcileFails := false, batchFails := fun _ => true }).events.getLast? =
      some RunEvent.close :=
  c7_single_connection_closed_on_every_path { schemas := [], tables := [] } "dbo" "users"
    [{ name := "id", ftype := "int32", nullable := false }] [["1"]] false 1
    { reconcileFails := false, batchFails := fun _ => true } (by decide)

/-- C10: when the run proceeds past the empty check and reconciliation
succeeds, the reconciliation statements and their own commit happen before
any batch insert (the trace starts connect, ddl, ddlCommit), and the created
schema and table are in the final durable state for every batch-failure
oracle — a later batch-insert failure never rolls the DDL back. -/

theorem c10_reconciliation_commit_precedes_inserts_and_survives_failures (db : DbState)
    (target_schema target_table : String) (fields : List ArrowField) (rows : List Row)
    (drop_existing : Bool) (batch_size : Int) (oracle : FailureOracle)
    (h1 : rows ≠ []) (h2 : oracle.reconcileFails = false) :
    (run db target_schema target_table fields rows drop_existing batch_size
        oracle).events.take 3 = [RunEvent.connect, RunEvent.ddl, RunEvent.ddlCommit] ∧
    schemaExists (run db target_schema target_table fields rows drop_existing batch_size
        oracle).finalDb target_schema = true ∧
    tableExists (run db target_schema target_table fields rows drop_existing batch_size
        oracle).finalDb target_schema target_table = true := by
  rcases rows with _ | ⟨x, xs⟩
  · exact absurd rfl h1
  · simp only [run, List.isEmpty_cons, Bool.false_eq_true, if_false, h2]
    rcases hing : ingest_data (x :: xs) batch_size with e | res
    · refine ⟨rfl, ?_, ?_⟩
      · show schemaExists (create_table_if_needed { durable := db, pending := db }
            target_schema target_table fields drop_existing).1.durable target_schema = true
        rw [create_table_durable_eq_pending]
        exact create_table_pending_schemaExists _ _ _ _ _
      · show tableExists (create_table_if_needed { durable := db, pending := db }
            target_schema target_table fields drop_existing).1.durable target_schema
            target_table = true
        rw [create_table_durable_eq_pending]
        exact create_table_pending_tableExists _ _ _ _ _
    · have hpres := ingestLoop_preserves_relation target_schema target_table oracle.batchFails
        res.batches (create_table_if_needed { durable := db, pending := db }
          target_schema target_table fields drop_existing).1 0
        (by rw [create_table_durable_eq_pending]; exact create_table_pending_tableExists _ _ _ _ _)
        (create_table_pending_tableExists _ _ _ _ _)
        (by rw [create_table_durable_eq_pending]; exact create_table_pending_schemaExists _ _ _ _ _)
        (create_table_pending_schemaExists _ _ _ _ _)
      exact ⟨rfl, hpres.2, hpres.1⟩

/-- C10 witness: a run whose only batch insert raises still leaves the created
schema and table durably present, with the DDL commit at trace position 3. -/

theorem c10_reconciliation_commit_precedes_inserts_and_survives_failures_witness :
    (run { schemas := [], tables := [] } "dbo" "users"
        [{ name := "id", ftype := "int32", nullable := false }] [["1"]] false 1
        { reconcileFails := false, batchFails := fun _ => true }).events.take 3 =
      [RunEvent.connect, RunEvent.ddl, RunEvent.ddlCommit] ∧
    schemaExists (run { schemas := [], tables := [] } "dbo" "users"
        [{ name := "id", ftype := "int32", nullable := false }] [["1"]] false 1
        { reconcileFails := false, batchFails := fun _ => true }).finalDb ("dbo") = true ∧
    tableExists (run { schemas := [], tables := [] } "dbo" "users"
        [{ name := "id", ftype := "int32", nullable := false }] [["1"]] false 1
        { reconcileFails := false, batchFails := fun _ => true }).finalDb ("dbo") "users" = true :=
  c10_reconciliation_commit_precedes_inserts_and_survives_failures
    { schemas := [], tables := [] } "dbo" "users"
    [{ name := "id", ftype := "int32", nullable := false }] [["1"]] false 1
    { reconcileFails := false, batchFails := fun _ => true } (by decide) rfl

theorem isPrefixOf_self_append (p r : List Char) : p.isPrefixOf (p ++ r) = true := by
  induction p with
  | nil => simp [List.isPrefixOf]
  | cons c cs ih => simp [List.isPrefixOf, ih]

theorem isPrefixOf_append_of (p : List Char) :
    ∀ (s r : List Char), p.isPrefixOf s = true → p.isPrefixOf (s ++ r) = true := by
  induction p with
  | nil => intro s r _; simp [List.isPrefixOf]
  | cons c cs ih =>
    intro s r h
    cases s with
    | nil => exact absurd h (by simp [List.isPrefixOf])
    | cons d ds =>
      simp only [List.isPrefixOf, Bool.and_eq_true] at h
      simp only [List.cons_append, List.isPrefixOf, Bool.and_eq_true]
      exact ⟨h.1, ih ds r h.2⟩

theorem subOccurs_of_isPrefixOf (pat s : List Char) (h : pat.isPrefixOf s = true) :
    subOccurs pat s = true := by
  cases s with
  | nil => simpa [subOccurs] using h
  | cons c cs => simp [subOccurs, h]

theorem subOccurs_of_isSub (pat l : List Char) (h : pat <:+: l) : subOccurs pat l = true := by
  obtain ⟨s, t, hst⟩ := h
  subst hst
  induction s with
  | nil =>
    refine subOccurs_of_isPrefixOf _ _ ?_
    exact isPrefixOf_self_append pat t
  | cons c cs ih =>
    simp only [List.cons_append, subOccurs, Bool.or_eq_true]
    exact Or.inr ih

theorem subOccurs_nil_pat (r : List Char) : subOccurs [] r = true := by
  cases r <;> simp [subOccurs, List.isPrefixOf]

theorem subOccurs_append_right (pat : List Char) :
    ∀ (s r : List Char), subOccurs pat s = true → subOccurs pat (s ++ r) = true := by
  intro s
  induction s with
  | nil =>
    intro r h
    have hp : pat = [] := by
      cases pat with
      | nil => rfl
      | cons c cs => exact absurd h (by simp [subOccurs, List.isPrefixOf])
    subst hp
    exact subOccurs_nil_pat _
  | cons c cs ih =>
    intro r h
    simp only [subOccurs, Bool.or_eq_true] at h
    simp only [List.cons_append, subOccurs, Bool.or_eq_true]
    rcases h with h | h
    · exact Or.inl (by simpa [List.cons_append] using
        isPrefixOf_append_of pat (c :: cs) r (by simpa using h))
    · exact Or.inr (ih r h)

theorem pyContains_of_isSub (s mid : String) (h : mid.data <:+: s.data) :
    pyContains s mid = true :=
  subOccurs_of_isSub _ _ h

set_option maxRecDepth 8192 in
/-- C8 counterexample: at the concrete identity dbo.users, the table-existence
check issued by the reconciler carries no bound parameters at all, while both
names appear inside its SQL text as single-quoted value literals — the claim
that every existence check passes the names as bound statement parameters is
false. (The schema-existence check does bind its parameter.) -/
theorem c8_counterexample_table_check_interpolates_names :
    (create_table_if_needed emptyConn ("dbo") "users" [] false).2.1 =
      [stmtSchemaCheck ("dbo"), stmtCreate ("dbo") "users" []] ∧
    (stmtCreate ("dbo") "users" []).params = [] ∧
    pyContains (stmtCreate ("dbo") "users" []).sql (sglq ++ "users" ++ sglq) = true ∧
    pyContains (stmtCreate ("dbo") "users" []).sql (sglq ++ "dbo" ++ sglq) = true := by
  refine ⟨by decide, by decide, by decide, by decide⟩

/-- C8 (amended): the schema-existence check binds the schema name as a
statement parameter (its text carries the `%s` placeholder), but the
table-existence check and the OBJECT_ID drop guard carry no bound parameters —
they interpolate the schema and table names into the SQL text as single-quoted
value literals; DDL identifiers are embedded with bracket quoting. -/

theorem c8_schema_check_bound_table_check_interpolated (conn : Conn)
    (sname tname : String) (fields : List ArrowField) (drop_existing : Bool) :
    (create_table_if_needed conn sname tname fields drop_existing).2.1.head? =
      some (stmtSchemaCheck sname) ∧
    (stmtSchemaCheck sname).params = [sname] ∧
    pyContains (stmtSchemaCheck sname).sql ("%s") = true ∧
    (create_table_if_needed conn sname tname fields drop_existing).2.1.getLast? =
      some (stmtCreate sname tname fields) ∧
    (stmtCreate sname tname fields).params = [] ∧
    pyContains (stmtCreate sname tname fields).sql (sglq ++ sname ++ sglq) = true ∧
    pyContains (stmtCreate sname tname fields).sql (sglq ++ tname ++ sglq) = true ∧
    (stmtDrop sname tname).params = [] ∧
    pyContains (stmtDrop sname tname).sql (sglq ++ sname ++ "." ++ tname ++ sglq) = true := by
  refine ⟨rfl, rfl, ?_, List.getLast?_concat _, rfl, ?_, ?_, rfl, ?_⟩
  · show pyContains (stmtSchemaCheck sname).sql ("%s") = true
    simp only [pyContains, stmtSchemaCheck, String.data_append, List.append_assoc]
    exact subOccurs_append_right _ _ _ (by decide)
  · apply pyContains_of_isSub
    refine ⟨("\nIF NOT EXISTS (SELECT 1 FROM INFORMATION_SCHEMA.TABLES\n               WHERE TABLE_SCHEMA = " : String).data,
      (" AND TABLE_NAME = " ++ sglq ++ tname ++ sglq ++ ")\nBEGIN\n    CREATE TABLE [" ++
        sname ++ "].[" ++ tname ++ "] (\n" ++
        String.intercalate (",\n") (fields.map columnLine) ++ "\n    )\nEND\n").data, ?_⟩
    simp [stmtCreate, String.data_append, List.append_assoc]
  · apply pyContains_of_isSub
    refine ⟨("\nIF NOT EXISTS (SELECT 1 FROM INFORMATION_SCHEMA.TABLES\n               WHERE TABLE_SCHEMA = " ++
        sglq ++ sname ++ sglq ++ " AND TABLE_NAME = ").data,
      (")\nBEGIN\n    CREATE TABLE [" ++ sname ++ "].[" ++ tname ++ "] (\n" ++
        String.intercalate (",\n") (fields.map columnLine) ++ "\n    )\nEND\n").data, ?_⟩
    simp [stmtCreate, String.data_append, List.append_assoc]
  · apply pyContains_of_isSub
    refine ⟨("IF OBJECT_ID(" : String).data,
      (", " ++ sglq ++ "U" ++ sglq ++ ") IS NOT NULL DROP TABLE [" ++ sname ++ "].[" ++
        tname ++ "]").data, ?_⟩
    simp [stmtDrop, String.data_append, List.append_assoc]

/-- The `iceberg` section of the configuration mapping (spec §6); only the
keys the CLI override block touches are modelled, absent keys are `none`. -/

theorem c9_counterexample_zero_batch_size_flag_ignored :
    (applyOverrides { sql_server := { batch_size := some 1000 } }
        { batch_size := some 0 }).sql_server.batch_size = some 1000 ∧
    ¬((applyOverrides { sql_server := { batch_size := some 1000 } }
        { batch_size := some 0 }).sql_server.batch_size = some 0) := by
  refine ⟨by decide, by decide⟩

/-- C9 (amended): a supplied flag whose value is truthy (non-empty string,
non-zero integer, or a given store-true flag) does override the file value at
its key-path, but a falsy supplied value (0 or the empty string) is silently
ignored; --verbose only raises the log level and leaves the config unchanged. -/

theorem c9_truthy_flags_override_and_verbose_only_logs (cfg : AppConfig) (a : CliArgs) :
    (∀ v : String, a.iceberg_catalog_name = some v → v ≠ "" →
      (applyOverrides cfg a).iceberg.catalog_name = some v) ∧
    (∀ v : String, a.iceberg_namespace = some v → v ≠ "" →
      (applyOverrides cfg a).iceberg.nspace = some v) ∧
    (∀ v : String, a.iceberg_table = some v → v ≠ "" →
      (applyOverrides cfg a).iceberg.table = some v) ∧
    (∀ v : String, a.sql_host = some v → v ≠ "" →
      (applyOverrides cfg a).sql_server.host = some v) ∧
    (∀ v : Int, a.sql_port = some v → v ≠ 0 →
      (applyOverrides cfg a).sql_server.port = some v) ∧
    (∀ v : String, a.sql_database = some v → v ≠ "" →
      (applyOverrides cfg a).sql_server.database = some v) ∧
    (∀ v : String, a.sql_user = some v → v ≠ "" →
      (applyOverrides cfg a).sql_server.user = some v) ∧
    (∀ v : String, a.sql_password = some v → v ≠ "" →
      (applyOverrides cfg a).sql_server.password = some v) ∧
    (∀ v : String, a.sql_target_schema = some v → v ≠ "" →
      (applyOverrides cfg a).sql_server.target_schema = some v) ∧
    (∀ v : String, a.sql_target_table = some v → v ≠ "" →
      (applyOverrides cfg a).sql_server.target_table = some v) ∧
    (∀ v : Int, a.batch_size = some v → v ≠ 0 →
      (applyOverrides cfg a).sql_server.batch_size = some v) ∧
    (a.drop_existing = true → (applyOverrides cfg a).sql_server.drop_existing = some true) ∧
    (a.batch_size = some 0 →
      (applyOverrides cfg a).sql_server.batch_size = cfg.sql_server.batch_size) ∧
    (∀ b : Bool, (mainApply cfg { a with verbose := b }).config = (mainApply cfg a).config) ∧
    ((mainApply cfg a).logLevel = if a.verbose then 10 else 20) := by
  refine ⟨?_, ?_, ?_, ?_, ?_, ?_, ?_, ?_, ?_, ?_, ?_, ?_, ?_, ?_, rfl⟩
  all_goals intros
  case _ h hv => simp [applyOverrides, ovStr, h, hv]
  case _ h hv => simp [applyOverrides, ovStr, h, hv]
  case _ h hv => simp [applyOverrides, ovStr, h, hv]
  case _ h hv => simp [applyOverrides, ovStr, h, hv]
  case _ h hv => simp [applyOverrides, ovInt, h, hv]
  case _ h hv => simp [applyOverrides, ovStr, h, hv]
  case _ h hv => simp [applyOverrides, ovStr, h, hv]
  case _ h hv => simp [applyOverrides, ovStr, h, hv]
  case _ h hv => simp [applyOverrides, ovStr, h, hv]
  case _ h hv => simp [applyOverrides, ovStr, h, hv]
  case _ h hv => simp [applyOverrides, ovInt, h, hv]
  case _ h => simp [applyOverrides, h]
  case _ h => simp [applyOverrides, ovInt, h]
  case _ => simp [mainApply, applyOverrides]

/-- C9 witness: a concrete invocation where every hypothesis is discharged —
the truthy batch-size flag overrides, the zero flag is ignored, and verbose
only changes the log level. -/

theorem c9_truthy_flags_override_and_verbose_only_logs_witness :
    (applyOverrides { sql_server := { batch_size := some 1000 } }
        { batch_size := some 500 }).sql_server.batch_size = some 500 ∧
    (applyOverrides { sql_server := { batch_size := some 1000 } }
        { batch_size := some 0 }).sql_server.batch_size = some 1000 ∧
    (mainApply { sql_server := { batch_size := some 1000 } }
        { batch_size := some 500 }).logLevel = 20 :=
  ⟨(c9_truthy_flags_override_and_verbose_only_logs
      { sql_server := { batch_size := some 1000 } }
      { batch_size := some 500 }).2.2.2.2.2.2.2.2.2.2.1 500 rfl (by decide),
   (c9_truthy_flags_override_and_verbose_only_logs
      { sql_server := { batch_size := some 1000 } }
      { batch_size := some 0 }).2.2.2.2.2.2.2.2.2.2.2.2.1 rfl,
   (c9_truthy_flags_override_and_verbose_only_logs
      { sql_server := { batch_size := some 1000 } }
      { batch_size := some 500 }).2.2.2.2.2.2.2.2.2.2.2.2.2.2⟩

theorem digitChar_isDigitCh (d : Nat) (h : d < 10) : isDigitCh (Nat.digitChar d) = true := by
  interval_cases d <;> decide

theorem asciiLower_of_isDigitCh (c : Char) (h : isDigitCh c = true) : asciiLower c = c := by
  simp only [isDigitCh, Bool.and_eq_true, decide_eq_true_eq] at h
  simp only [asciiLower]
  rw [if_neg]
  omega

theorem isSpaceCh_eq_false_of_isDigitCh (c : Char) (h : isDigitCh c = true) :
    isSpaceCh c = false := by
  simp only [isDigitCh, Bool.and_eq_true, decide_eq_true_eq] at h
  simp only [isSpaceCh, Bool.or_eq_false_iff, decide_eq_false_iff_not]
  omega

theorem toDigitsCore_all_digits (f : Nat) :
    ∀ (n : Nat) (acc : List Char), (∀ c ∈ acc, isDigitCh c = true) →
      ∀ c ∈ Nat.toDigitsCore 10 f n acc, isDigitCh c = true := by
  induction f with
  | zero =>
    intro n acc hacc
    simpa [Nat.toDigitsCore] using hacc
  | succ f ih =>
    intro n acc hacc
    simp only [Nat.toDigitsCore]
    split
    · intro c hc
      rcases List.mem_cons.mp hc with h1 | h2
      · subst h1
        exact digitChar_isDigitCh _ (Nat.mod_lt _ (by norm_num))
      · exact hacc _ h2
    · refine ih _ _ ?_
      intro c hc
      rcases List.mem_cons.mp hc with h1 | h2
      · subst h1
        exact digitChar_isDigitCh _ (Nat.mod_lt _ (by norm_num))
      · exact hacc _ h2

theorem toDigitsCore_ne_nil (b f : Nat) :
    ∀ (n : Nat) (acc : List Char), acc ≠ [] → Nat.toDigitsCore b f n acc ≠ [] := by
  induction f with
  | zero =>
    intro n acc hacc
    simpa [Nat.toDigitsCore] using hacc
  | succ f ih =>
    intro n acc hacc
    simp only [Nat.toDigitsCore]
    split
    · simp
    · exact ih _ _ (by simp)

theorem toString_nat_all_digits (n : Nat) : ∀ c ∈ (toString n).data, isDigitCh c = true := by
  have h : (toString n).data = Nat.toDigitsCore 10 (n + 1) n [] := rfl
  rw [h]
  exact toDigitsCore_all_digits (n + 1) n [] (by simp)

theorem toString_nat_ne_nil (n : Nat) : (toString n).data ≠ [] := by
  have h : (toString n).data = Nat.toDigitsCore 10 (n + 1) n [] := rfl
  rw [h]
  simp only [Nat.toDigitsCore]
  split
  · simp
  · exact toDigitsCore_ne_nil 10 n (n / 10) [Nat.digitChar (n % 10)] (by simp)

theorem map_asciiLower_id (l : List Char) (h : ∀ c ∈ l, asciiLower c = c) :
    l.map asciiLower = l := by
  induction l with
  | nil => rfl
  | cons c cs ih =>
    simp only [List.map_cons]
    rw [h c (List.mem_cons_self _ _), ih (fun x hx => h x (List.mem_cons_of_mem _ hx))]

theorem takeWhile_append_all (p : Char → Bool) :
    ∀ (l r : List Char), (∀ c ∈ l, p c = true) → (l ++ r).takeWhile p = l ++ r.takeWhile p := by
  intro l
  induction l with
  | nil => intro r _; rfl
  | cons c cs ih =>
    intro r h
    have hc : p c = true := h c (List.mem_cons_self _ _)
    simp only [List.cons_append, List.takeWhile_cons, hc, if_true]
    rw [ih r (fun x hx => h x (List.mem_cons_of_mem _ hx))]

theorem dropWhile_append_all (p : Char → Bool) :
    ∀ (l r : List Char), (∀ c ∈ l, p c = true) → (l ++ r).dropWhile p = r.dropWhile p := by
  intro l
  induction l with
  | nil => intro r _; rfl
  | cons c cs ih =>
    intro r h
    have hc : p c = true := h c (List.mem_cons_self _ _)
    simp only [List.cons_append, List.dropWhile_cons, hc, if_true]
    exact ih r (fun x hx => h x (List.mem_cons_of_mem _ hx))

theorem dropPrefixCh_self_append : ∀ (p s : List Char), dropPrefixCh p (p ++ s) = some s := by
  intro p
  induction p with
  | nil => intro s; rfl
  | cons c cs ih =>
    intro s
    simp only [List.cons_append, dropPrefixCh, if_pos rfl]
    exact ih s

theorem expectCh_cons (c : Char) (l : List Char) : expectCh c (c :: l) = some l := by
  simp [expectCh]

theorem matchDecimalAt_decimal_tag (ds Pd Sd tail : List Char)
    (hds : ∀ c ∈ ds, isDigitCh c = true)
    (hPd : ∀ c ∈ Pd, isDigitCh c = true) (hPne : Pd ≠ [])
    (hSd : ∀ c ∈ Sd, isDigitCh c = true) (hSne : Sd ≠ []) :
    matchDecimalAt (decimalPat ++ (ds ++ ('(' :: (Pd ++ (',' :: ' ' :: (Sd ++ ')' :: tail)))))) =
      some (Pd, Sd) := by
  rcases Sd with _ | ⟨s0, Sd'⟩
  · exact absurd rfl hSne
  have hs0 : isDigitCh s0 = true := hSd s0 (List.mem_cons_self _ _)
  have hSd' : ∀ c ∈ Sd', isDigitCh c = true :=
    fun c hc => hSd c (List.mem_cons_of_mem _ hc)
  have hPe : Pd.isEmpty = false := by
    cases Pd with
    | nil => exact absurd rfl hPne
    | cons a l => rfl
  simp only [matchDecimalAt, dropPrefixCh_self_append, Option.some_bind]
  rw [dropWhile_append_all isDigitCh ds _ hds]
  rw [show List.dropWhile isDigitCh ('(' :: (Pd ++ (',' :: ' ' :: (s0 :: Sd' ++ ')' :: tail)))) =
      '(' :: (Pd ++ (',' :: ' ' :: (s0 :: Sd' ++ ')' :: tail))) from by
    rw [List.dropWhile_cons, if_neg (by decide)]]
  rw [expectCh_cons, Option.some_bind]
  rw [takeWhile_append_all isDigitCh Pd _ hPd, dropWhile_append_all isDigitCh Pd _ hPd]
  rw [show List.takeWhile isDigitCh (',' :: ' ' :: (s0 :: Sd' ++ ')' :: tail)) = [] from by
    rw [List.takeWhile_cons, if_neg (by decide)]]
  rw [List.append_nil, hPe]
  simp only [Bool.false_eq_true, if_false]
  rw [show List.dropWhile isDigitCh (',' :: ' ' :: (s0 :: Sd' ++ ')' :: tail)) =
      ',' :: ' ' :: (s0 :: Sd' ++ ')' :: tail) from by
    rw [List.dropWhile_cons, if_neg (by decide)]]
  rw [expectCh_cons, Option.some_bind]
  rw [show List.dropWhile isSpaceCh (' ' :: (s0 :: Sd' ++ ')' :: tail)) =
      s0 :: (Sd' ++ ')' :: tail) from by
    rw [List.dropWhile_cons, if_pos (by decide), List.cons_append, List.dropWhile_cons,
      if_neg (by rw [isSpaceCh_eq_false_of_isDigitCh s0 hs0]; exact Bool.false_ne_true)]]
  rw [show List.takeWhile isDigitCh (s0 :: (Sd' ++ ')' :: tail)) =
      s0 :: Sd' from by
    rw [List.takeWhile_cons, if_pos hs0, takeWhile_append_all isDigitCh Sd' _ hSd',
      List.takeWhile_cons, if_neg (by decide), List.append_nil]]
  rw [show List.dropWhile isDigitCh (s0 :: (Sd' ++ ')' :: tail)) = ')' :: tail from by
    rw [List.dropWhile_cons, if_pos hs0, dropWhile_append_all isDigitCh Sd' _ hSd',
      List.dropWhile_cons, if_neg (by decide)]]
  rw [show (s0 :: Sd').isEmpty = false from rfl]
  simp only [Bool.false_eq_true, if_false]
  rw [expectCh_cons]
  rfl

theorem string_mk_data (s : String) : String.mk s.data = s := by
  cases s
  rfl

theorem searchDecimalList_of_matchAt (cs : List Char) (r : List Char × List Char)
    (hne : cs ≠ []) (h : matchDecimalAt cs = some r) : searchDecimalList cs = some r := by
  cases cs with
  | nil => exact absurd rfl hne
  | cons c rest => simp only [searchDecimalList, h]

/-- C4: the decimal rule is dispatched first and behaves as claimed — a tag of
shape decimal<digits>(P, S) with non-negative integers S ≤ P maps to
DECIMAL(P, S) with the extracted precision and scale, and a tag of the
decimal family whose precision and scale the pattern cannot parse (e.g. no
parentheses) maps to the default DECIMAL(38, 18). -/

theorem c4_decimal_rule_extracts_or_defaults :
    (∀ (ds : List Char) (P S : Nat), (∀ c ∈ ds, isDigitCh c = true) → S ≤ P →
      arrow_type_to_sql
          ("decimal" ++ String.mk ds ++ "(" ++ toString P ++ ", " ++ toString S ++ ")") =
        "DECIMAL(" ++ toString P ++ ", " ++ toString S ++ ")") ∧
    (∀ t : String, pyStartsWithPre (pyLower t) "decimal" = true →
      searchDecimalList (pyLower t).data = none →
      arrow_type_to_sql t = "DECIMAL(38, 18)") := by
  constructor
  · intro ds P S hds _
    have hPd := toString_nat_all_digits P
    have hSd := toString_nat_all_digits S
    have hPne := toString_nat_ne_nil P
    have hSne := toString_nat_ne_nil S
    have htag :
        ("decimal" ++ String.mk ds ++ "(" ++ toString P ++ ", " ++ toString S ++ ")").data =
          decimalPat ++ (ds ++ ('(' :: ((toString P).data ++
            (',' :: ' ' :: ((toString S).data ++ ')' :: []))))) := by
      simp only [String.data_append]
      simp [decimalPat, List.append_assoc]
    have hfix :
        (pyLower ("decimal" ++ String.mk ds ++ "(" ++ toString P ++ ", " ++
            toString S ++ ")")).data =
          ("decimal" ++ String.mk ds ++ "(" ++ toString P ++ ", " ++ toString S ++ ")").data := by
      show ("decimal" ++ String.mk ds ++ "(" ++ toString P ++ ", " ++
          toString S ++ ")").data.map asciiLower = _
      rw [htag]
      apply map_asciiLower_id
      intro c hc
      simp only [List.mem_append, List.mem_cons] at hc
      have hdecl : ∀ x ∈ decimalPat, asciiLower x = x := by decide
      rcases hc with hc | hc | hc | hc | hc | hc | hc | hc | hc
      · exact hdecl c hc
      · exact asciiLower_of_isDigitCh c (hds c hc)
      · subst hc; decide
      · exact asciiLower_of_isDigitCh c (hPd c hc)
      · subst hc; decide
      · subst hc; decide
      · exact asciiLower_of_isDigitCh c (hSd c hc)
      · subst hc; decide
      · exact absurd hc (List.not_mem_nil c)
    show arrowTypeCore ((pyLower ("decimal" ++ String.mk ds ++ "(" ++ toString P ++ ", " ++
        toString S ++ ")")).data) = _
    rw [hfix, htag]
    simp only [arrowTypeCore]
    rw [if_pos (isPrefixOf_self_append decimalPat _)]
    rw [searchDecimalList_of_matchAt _ ((toString P).data, (toString S).data)
      (by simp [decimalPat])
      (matchDecimalAt_decimal_tag ds (toString P).data (toString S).data [] hds hPd hPne hSd
        hSne)]
  · intro t h1 h2
    show arrowTypeCore ((pyLower t).data) = "DECIMAL(38, 18)"
    simp only [arrowTypeCore]
    have h1' : decimalPat.isPrefixOf (pyLower t).data = true := h1
    rw [if_pos h1', h2]

/-- C4 witness: both halves evaluated concretely — decimal128(10, 2) extracts
DECIMAL(10, 2); the parenthesis-free tag decimal128 falls back to
DECIMAL(38, 18). -/

theorem c4_decimal_rule_extracts_or_defaults_witness :
    (∀ c ∈ (['1', '2', '8'] : List Char), isDigitCh c = true) ∧ (2 : Nat) ≤ 10 ∧
    arrow_type_to_sql ("decimal" ++ String.mk ['1', '2', '8'] ++ "(" ++ toString (10 : Nat) ++
        ", " ++ toString (2 : Nat) ++ ")") =
      "DECIMAL(" ++ toString (10 : Nat) ++ ", " ++ toString (2 : Nat) ++ ")" ∧
    pyStartsWithPre (pyLower ("decimal128")) "decimal" = true ∧
    searchDecimalList (pyLower ("decimal128")).data = none ∧
    arrow_type_to_sql ("decimal128") = "DECIMAL(38, 18)" :=
  ⟨by decide, by decide,
   c4_decimal_rule_extracts_or_defaults.1 ['1', '2', '8'] 10 2 (by decide) (by decide),
   by decide, by decide,
   c4_decimal_rule_extracts_or_defaults.2 ("decimal128") (by decide) (by decide)⟩
